import Mathlib

/- Formal model of the swingby gravity simulator.
   The two Go program variants are embedded shallowly: float64 is modelled
   by the real numbers, Go structs by Lean structures, and the in-place
   slice mutation of Game.Update by folds over indices updating a total
   function Fin n -> SpaceObject. -/

namespace Swingby

/-- 2D vector of float64 components, from the Go type Vector. -/
@[ext]
structure Vector where
  X : ℝ
  Y : ℝ

/-- Length of the vector (pythagorean theorem), from Vector.Length. -/
noncomputable def Vector.Length (v : Vector) : ℝ :=
  Real.sqrt (v.X * v.X + v.Y * v.Y)

/-- Normalized version of the vector, from Vector.Normalize. -/
noncomputable def Vector.Normalize (v : Vector) : Vector :=
  ⟨v.X / v.Length, v.Y / v.Length⟩

/-- Componentwise scaled version of the vector, from Vector.Scale. -/
noncomputable def Vector.Scale (v : Vector) (xScale yScale : ℝ) : Vector :=
  ⟨v.X * xScale, v.Y * yScale⟩

/-- Componentwise translated version of the vector, from Vector.Translate. -/
noncomputable def Vector.Translate (v : Vector) (dx dy : ℝ) : Vector :=
  ⟨v.X + dx, v.Y + dy⟩

/-- Gravitational constant, from the const block of the n-body variant. -/
noncomputable def gravitation : ℝ := 6.67430e-11

/-- Fixed time delta of the n-body variant. -/
noncomputable def dt : ℝ := 1.0 / 60.0 * 60 * 60 * 24 * 30

/-- X scaling factor for the screen projection of the n-body variant. -/
noncomputable def XScale : ℝ := 0.1e-6

/-- Y scaling factor for the screen projection of the n-body variant. -/
noncomputable def YScale : ℝ := 0.1e-6

/-- A space object, from the Go struct SpaceObject. The two image fields
    are dropped (pure rendering resources); name and color are kept as
    opaque metadata not consumed by physics. -/
@[ext]
structure SpaceObject where
  name : String
  mass : ℝ
  position : Vector
  scaledPosition : Vector
  velocity : Vector
  color : ℕ

/-- Velocity update from SpaceObject.UpdateVelocity: each velocity
    component is increased by (force component / mass) * dt. -/
noncomputable def SpaceObject.UpdateVelocity (so : SpaceObject) (force : Vector) : SpaceObject :=
  { so with velocity := ⟨so.velocity.X + (force.X / so.mass) * dt,
                         so.velocity.Y + (force.Y / so.mass) * dt⟩ }

/-- Position update from SpaceObject.UpdatePosition: each position
    component is increased by (velocity component) * dt. -/
noncomputable def SpaceObject.UpdatePosition (so : SpaceObject) : SpaceObject :=
  { so with position := ⟨so.position.X + so.velocity.X * dt,
                         so.position.Y + so.velocity.Y * dt⟩ }

/-- Gravitational force acting on so1 due to so2, from the Go function
    calculateGravitationalForce. -/
noncomputable def calculateGravitationalForce (so1 so2 : SpaceObject) : Vector :=
  let distanceVector : Vector :=
    ⟨so1.position.X - so2.position.X, so1.position.Y - so2.position.Y⟩
  let distance := distanceVector.Length
  let gravForce := (gravitation * so2.mass * so1.mass) / (distance * distance)
  let forceDirection := distanceVector.Normalize
  ⟨-gravForce * forceDirection.X, -gravForce * forceDirection.Y⟩

/-- Game state of the n-body variant; spaceObjects models the Go slice of
    n object pointers as a total function from indices. -/
@[ext]
structure Game (n : ℕ) where
  screenWidth : ℤ
  screenHeight : ℤ
  spaceObjects : Fin n → SpaceObject
  time : ℝ

/-- One iteration of the inner force loop of Game.Update for outer index i
    and inner index j: skip when j = i (the self check of the source),
    otherwise update the velocity of object i in place with the force
    object j puts on it, both read from the current array. -/
noncomputable def velStep {n : ℕ} (i : Fin n) (acc : Fin n → SpaceObject) (j : Fin n) :
    Fin n → SpaceObject :=
  if j = i then acc
  else Function.update acc i
    ((acc i).UpdateVelocity (calculateGravitationalForce (acc i) (acc j)))

/-- The double force loop of Game.Update: for every i, for every j,
    velStep. -/
noncomputable def velocityPhase {n : ℕ} (arr : Fin n → SpaceObject) : Fin n → SpaceObject :=
  (List.finRange n).foldl (fun acc i => (List.finRange n).foldl (velStep i) acc) arr

/-- The position loop body of Game.Update: update the position from the
    velocity, then recompute the scaled screen position. The Go expression
    float64(g.screenWidth / 2.0) is integer division then conversion. -/
noncomputable def positionPhase {n : ℕ} (g : Game n) (so : SpaceObject) : SpaceObject :=
  let so2 := so.UpdatePosition
  let scaled :=
    (so2.position.Scale XScale YScale).Translate ((g.screenWidth / 2 : ℤ) : ℝ) ((g.screenHeight / 2 : ℤ) : ℝ)
  { so2 with scaledPosition := scaled }

/-- One tick of the n-body variant, from Game.Update of part_000; the
    second component is the error value returned by the Go method, which
    is always nil (modelled as none). -/
noncomputable def Game.Update {n : ℕ} (g : Game n) : Game n × Option String :=
  ({ g with
      spaceObjects := fun i => positionPhase g (velocityPhase g.spaceObjects i),
      time := g.time + dt }, none)

namespace Main

/-- Gravitational constant, from the const block of main.go. -/
noncomputable def gravitation : ℝ := 6.67430e-11

/-- Fixed time delta of the two-body variant in main.go. -/
noncomputable def dt : ℝ := 1.0 / 60.0 * 60 * 60 * 24

/-- X scaling factor of main.go. -/
noncomputable def XScale : ℝ := 0.1e-5

/-- Y scaling factor of main.go. -/
noncomputable def YScale : ℝ := 0.1e-5

/-- The Planet struct of main.go, image fields dropped. -/
@[ext]
structure Planet where
  mass : ℝ
  position : Vector
  velocity : Vector

/-- The Spacecraft struct of main.go, image fields dropped. -/
@[ext]
structure Spacecraft where
  mass : ℝ
  position : Vector
  velocity : Vector

/-- Game state of the two-body variant in main.go. -/
@[ext]
structure Game where
  screenWidth : ℤ
  screenHeight : ℤ
  planet : Planet
  spacecraft : Spacecraft
  time : ℝ

/-- One tick of the two-body variant, from Game.Update of main.go, in the
    exact source order: the planet position is updated first, then the
    gravitational force on the spacecraft is computed from the already
    moved planet position, then spacecraft velocity and position are
    updated; the error result is always nil. -/
noncomputable def Game.Update (g : Game) : Game × Option String :=
  let planetPosition : Vector :=
    ⟨g.planet.position.X + g.planet.velocity.X * dt,
     g.planet.position.Y + g.planet.velocity.Y * dt⟩
  let planetPos := planetPosition
  let pos := g.spacecraft.position
  let vel := g.spacecraft.velocity
  let distanceVector : Vector := ⟨pos.X - planetPos.X, pos.Y - planetPos.Y⟩
  let distance := distanceVector.Length
  let gravForce := (gravitation * g.planet.mass * g.spacecraft.mass) / (distance * distance)
  let forceDirection := distanceVector.Normalize
  let force : Vector := ⟨-gravForce * forceDirection.X, -gravForce * forceDirection.Y⟩
  let vel2 : Vector := ⟨vel.X + (force.X / g.spacecraft.mass) * dt,
                        vel.Y + (force.Y / g.spacecraft.mass) * dt⟩
  let pos2 : Vector := ⟨pos.X + vel2.X * dt, pos.Y + vel2.Y * dt⟩
  ({ g with planet := { g.planet with position := planetPosition },
            spacecraft := { g.spacecraft with position := pos2, velocity := vel2 },
            time := g.time + dt }, none)

/-- Modelled from the spec: the variant of Game.Update required by section
    4.4 of the spec, in which every force computation reads only pre-tick
    positions. It is identical to Game.Update except that the distance
    vector is formed from the planet position BEFORE the planet moves; the
    planet still moves within the same tick. Used to compare the actual
    update order of main.go with the ordering the spec demands. -/
noncomputable def Game.UpdatePreTickForce (g : Game) : Game × Option String :=
  let planetPosition : Vector :=
    ⟨g.planet.position.X + g.planet.velocity.X * dt,
     g.planet.position.Y + g.planet.velocity.Y * dt⟩
  let planetPos := g.planet.position
  let pos := g.spacecraft.position
  let vel := g.spacecraft.velocity
  let distanceVector : Vector := ⟨pos.X - planetPos.X, pos.Y - planetPos.Y⟩
  let distance := distanceVector.Length
  let gravForce := (gravitation * g.planet.mass * g.spacecraft.mass) / (distance * distance)
  let forceDirection := distanceVector.Normalize
  let force : Vector := ⟨-gravForce * forceDirection.X, -gravForce * forceDirection.Y⟩
  let vel2 : Vector := ⟨vel.X + (force.X / g.spacecraft.mass) * dt,
                        vel.Y + (force.Y / g.spacecraft.mass) * dt⟩
  let pos2 : Vector := ⟨pos.X + vel2.X * dt, pos.Y + vel2.Y * dt⟩
  ({ g with planet := { g.planet with position := planetPosition },
            spacecraft := { g.spacecraft with position := pos2, velocity := vel2 },
            time := g.time + dt }, none)

end Main

/-- Per-pair velocity increment of the inner loop, X component: the list of
    contributions the inner loop for object i adds to its X velocity, the
    self pair contributing nothing. -/
noncomputable def dvX {n : ℕ} (arr : Fin n → SpaceObject) (i : Fin n) : ℝ :=
  ((List.finRange n).map (fun j => if j = i then 0 else
    ((calculateGravitationalForce (arr i) (arr j)).X / (arr i).mass) * dt)).sum

/-- Per-pair velocity increment of the inner loop, Y component. -/
noncomputable def dvY {n : ℕ} (arr : Fin n → SpaceObject) (i : Fin n) : ℝ :=
  ((List.finRange n).map (fun j => if j = i then 0 else
    ((calculateGravitationalForce (arr i) (arr j)).Y / (arr i).mass) * dt)).sum

/-- Net gravitational force on object i: the sum over every other object j
    of the pairwise force on i due to j, the self pair contributing
    nothing. -/
noncomputable def NetForceOn {n : ℕ} (arr : Fin n → SpaceObject) (i : Fin n) : Vector :=
  ⟨((List.finRange n).map (fun j => if j = i then 0 else
      (calculateGravitationalForce (arr i) (arr j)).X)).sum,
   ((List.finRange n).map (fun j => if j = i then 0 else
      (calculateGravitationalForce (arr i) (arr j)).Y)).sum⟩

/-- Modelled from the spec: the strict two-phase formulation of one tick
    from section 4.4: first compute every net force from pre-tick
    positions, then update every velocity by its net force, then update
    every position (with the same scaled-position commit the source
    performs in its position loop). -/
noncomputable def twoPhaseStep {n : ℕ} (g : Game n) : Game n :=
  { g with
      spaceObjects := fun i =>
        positionPhase g ((g.spaceObjects i).UpdateVelocity (NetForceOn g.spaceObjects i)),
      time := g.time + dt }

/-- Total momentum of the world: the sum over bodies of mass times
    velocity, componentwise. -/
noncomputable def momentum {n : ℕ} (g : Game n) : Vector :=
  ⟨((List.finRange n).map (fun i => (g.spaceObjects i).mass * (g.spaceObjects i).velocity.X)).sum,
   ((List.finRange n).map (fun i => (g.spaceObjects i).mass * (g.spaceObjects i).velocity.Y)).sum⟩

/-- The physics-relevant part of a game state: every mass, position and
    velocity, together with the clock. Screen dimensions, names, colors and
    scaled positions are excluded. -/
noncomputable def physState {n : ℕ} (g : Game n) : (Fin n → ℝ × Vector × Vector) × ℝ :=
  (fun i => ((g.spaceObjects i).mass, (g.spaceObjects i).position, (g.spaceObjects i).velocity),
   g.time)

/-- The state transition of one tick (the first component of Update). -/
noncomputable def stepGame {n : ℕ} (g : Game n) : Game n := (Game.Update g).1

/-- Concrete two-body game of the main.go variant used to exhibit the
    update ordering: the planet moves 1440 m in x during the tick. -/
noncomputable def cexGame1 : Main.Game :=
  { screenWidth := 0, screenHeight := 0,
    planet := { mass := 1, position := ⟨0, 0⟩, velocity := ⟨1, 0⟩ },
    spacecraft := { mass := 1, position := ⟨2880, 0⟩, velocity := ⟨0, 0⟩ },
    time := 0 }

/-- Concrete two-body game of the main.go variant with a resting planet
    and a spacecraft one metre away. -/
noncomputable def cexGame2 : Main.Game :=
  { screenWidth := 0, screenHeight := 0,
    planet := { mass := 1, position := ⟨0, 0⟩, velocity := ⟨0, 0⟩ },
    spacecraft := { mass := 1, position := ⟨1, 0⟩, velocity := ⟨0, 0⟩ },
    time := 0 }

/-- Space object mirroring the planet of cexGame2. -/
noncomputable def cexPlanetObj : SpaceObject :=
  { name := "Planet", mass := 1, position := ⟨0, 0⟩, scaledPosition := ⟨0, 0⟩,
    velocity := ⟨0, 0⟩, color := 0 }

/-- Space object mirroring the spacecraft of cexGame2. -/
noncomputable def cexCraftObj : SpaceObject :=
  { name := "Craft", mass := 1, position := ⟨1, 0⟩, scaledPosition := ⟨0, 0⟩,
    velocity := ⟨0, 0⟩, color := 0 }

/-- Concrete space object used as integrator witness. -/
noncomputable def w3so : SpaceObject :=
  { name := "w", mass := 2, position := ⟨1, 2⟩, scaledPosition := ⟨0, 0⟩,
    velocity := ⟨3, 4⟩, color := 0 }

/-- Concrete force vector used as integrator witness. -/
noncomputable def w3f : Vector := ⟨5, 6⟩

/-- Concrete space object used as force law witness. -/
noncomputable def w4a : SpaceObject :=
  { name := "a", mass := 2, position := ⟨3, 0⟩, scaledPosition := ⟨0, 0⟩,
    velocity := ⟨0, 0⟩, color := 0 }

/-- Concrete space object used as force law witness. -/
noncomputable def w4b : SpaceObject :=
  { name := "b", mass := 5, position := ⟨0, 0⟩, scaledPosition := ⟨0, 0⟩,
    velocity := ⟨0, 0⟩, color := 0 }

/-- Concrete space object used as antisymmetry witness. -/
noncomputable def w5a : SpaceObject :=
  { name := "a", mass := 3, position := ⟨0, 0⟩, scaledPosition := ⟨0, 0⟩,
    velocity := ⟨0, 0⟩, color := 0 }

/-- Concrete space object used as antisymmetry witness. -/
noncomputable def w5b : SpaceObject :=
  { name := "b", mass := 4, position := ⟨2, 0⟩, scaledPosition := ⟨0, 0⟩,
    velocity := ⟨0, 0⟩, color := 0 }

/-- Concrete two-body world used as momentum witness. -/
noncomputable def w6 : Game 2 :=
  { screenWidth := 640, screenHeight := 480,
    spaceObjects := ![
      { name := "a", mass := 1, position := ⟨0, 0⟩, scaledPosition := ⟨0, 0⟩,
        velocity := ⟨0, 0⟩, color := 0 },
      { name := "b", mass := 1, position := ⟨1, 0⟩, scaledPosition := ⟨0, 0⟩,
        velocity := ⟨0, 0⟩, color := 0 }],
    time := 0 }

/-- Concrete two-body world used as determinism witness. -/
noncomputable def w8a : Game 2 :=
  { screenWidth := 100, screenHeight := 200,
    spaceObjects := ![
      { name := "Earth", mass := 1, position := ⟨0, 0⟩, scaledPosition := ⟨5, 5⟩,
        velocity := ⟨0, 0⟩, color := 1 },
      { name := "Moon", mass := 2, position := ⟨3, 0⟩, scaledPosition := ⟨6, 6⟩,
        velocity := ⟨0, 1⟩, color := 2 }],
    time := 0 }

/-- Concrete two-body world with the same masses, positions, velocities
    and time as w8a but different names, colors, scaled positions and
    screen dimensions. -/
noncomputable def w8b : Game 2 :=
  { screenWidth := 300, screenHeight := 400,
    spaceObjects := ![
      { name := "X", mass := 1, position := ⟨0, 0⟩, scaledPosition := ⟨7, 7⟩,
        velocity := ⟨0, 0⟩, color := 7 },
      { name := "Y", mass := 2, position := ⟨3, 0⟩, scaledPosition := ⟨8, 8⟩,
        velocity := ⟨0, 1⟩, color := 8 }],
    time := 0 }

/-- Concrete two-body world used as error handling witness. -/
noncomputable def w9 : Game 2 :=
  { screenWidth := 640, screenHeight := 480,
    spaceObjects := ![
      { name := "a", mass := 1, position := ⟨0, 0⟩, scaledPosition := ⟨0, 0⟩,
        velocity := ⟨0, 0⟩, color := 0 },
      { name := "b", mass := 2, position := ⟨3, 0⟩, scaledPosition := ⟨0, 0⟩,
        velocity := ⟨0, 0⟩, color := 0 }],
    time := 0 }

theorem UpdateVelocity_velocity (so : SpaceObject) (f : Vector) :
    (so.UpdateVelocity f).velocity =
      ⟨so.velocity.X + (f.X / so.mass) * dt, so.velocity.Y + (f.Y / so.mass) * dt⟩ := rfl

theorem UpdateVelocity_position (so : SpaceObject) (f : Vector) :
    (so.UpdateVelocity f).position = so.position := rfl

theorem UpdateVelocity_mass (so : SpaceObject) (f : Vector) :
    (so.UpdateVelocity f).mass = so.mass := rfl

theorem positionPhase_velocity {n : ℕ} (g : Game n) (so : SpaceObject) :
    (positionPhase g so).velocity = so.velocity := rfl

theorem positionPhase_mass {n : ℕ} (g : Game n) (so : SpaceObject) :
    (positionPhase g so).mass = so.mass := rfl

theorem positionPhase_name {n : ℕ} (g : Game n) (so : SpaceObject) :
    (positionPhase g so).name = so.name := rfl

theorem positionPhase_position {n : ℕ} (g : Game n) (so : SpaceObject) :
    (positionPhase g so).position =
      ⟨so.position.X + so.velocity.X * dt, so.position.Y + so.velocity.Y * dt⟩ := rfl

theorem calcForce_congr (a a2 b b2 : SpaceObject)
    (hpa : a.position = a2.position) (hma : a.mass = a2.mass)
    (hpb : b.position = b2.position) (hmb : b.mass = b2.mass) :
    calculateGravitationalForce a b = calculateGravitationalForce a2 b2 := by
  simp only [calculateGravitationalForce, hpa, hma, hpb, hmb]

theorem calcForce_antisymm (a b : SpaceObject) :
    calculateGravitationalForce a b =
      ⟨-(calculateGravitationalForce b a).X, -(calculateGravitationalForce b a).Y⟩ := by
  simp only [calculateGravitationalForce, Vector.Normalize, Vector.Length]
  have h : (b.position.X - a.position.X) * (b.position.X - a.position.X) +
      (b.position.Y - a.position.Y) * (b.position.Y - a.position.Y) =
      (a.position.X - b.position.X) * (a.position.X - b.position.X) +
      (a.position.Y - b.position.Y) * (a.position.Y - b.position.Y) := by ring
  rw [h]
  simp only [Vector.mk.injEq]
  constructor <;> ring

theorem sum_map_div_mul {α : Type} (l : List α) (f : α → ℝ) (m c : ℝ) :
    (l.map (fun a => (f a / m) * c)).sum = ((l.map f).sum / m) * c := by
  induction l with
  | nil => simp
  | cons a l ih => simp [ih, add_div, add_mul]

theorem dvX_eq {n : ℕ} (arr : Fin n → SpaceObject) (i : Fin n) :
    dvX arr i = ((NetForceOn arr i).X / (arr i).mass) * dt := by
  have h : ((List.finRange n).map (fun j => if j = i then (0:ℝ) else
        ((calculateGravitationalForce (arr i) (arr j)).X / (arr i).mass) * dt)) =
      ((List.finRange n).map (fun j =>
        ((if j = i then (0:ℝ) else (calculateGravitationalForce (arr i) (arr j)).X)
          / (arr i).mass) * dt)) := by
    apply List.map_congr_left
    intro j _
    by_cases hj : j = i <;> simp [hj]
  simp only [dvX]
  rw [h]
  exact sum_map_div_mul _ _ _ _

theorem dvY_eq {n : ℕ} (arr : Fin n → SpaceObject) (i : Fin n) :
    dvY arr i = ((NetForceOn arr i).Y / (arr i).mass) * dt := by
  have h : ((List.finRange n).map (fun j => if j = i then (0:ℝ) else
        ((calculateGravitationalForce (arr i) (arr j)).Y / (arr i).mass) * dt)) =
      ((List.finRange n).map (fun j =>
        ((if j = i then (0:ℝ) else (calculateGravitationalForce (arr i) (arr j)).Y)
          / (arr i).mass) * dt)) := by
    apply List.map_congr_left
    intro j _
    by_cases hj : j = i <;> simp [hj]
  simp only [dvY]
  rw [h]
  exact sum_map_div_mul _ _ _ _

theorem foldl_velStep {n : ℕ} (i : Fin n) (arr : Fin n → SpaceObject) :
    ∀ (l : List (Fin n)) (cur : Fin n → SpaceObject),
      (∀ j, (cur j).position = (arr j).position) →
      (∀ j, (cur j).mass = (arr j).mass) →
      l.foldl (velStep i) cur = Function.update cur i
        { cur i with velocity :=
            ⟨(cur i).velocity.X + (l.map (fun j => if j = i then 0 else
                ((calculateGravitationalForce (arr i) (arr j)).X / (arr i).mass) * dt)).sum,
             (cur i).velocity.Y + (l.map (fun j => if j = i then 0 else
                ((calculateGravitationalForce (arr i) (arr j)).Y / (arr i).mass) * dt)).sum⟩ } := by
  intro l
  induction l with
  | nil =>
    intro cur hp hm
    simp only [List.foldl_nil, List.map_nil, List.sum_nil, add_zero]
    exact (Function.update_eq_self i cur).symm
  | cons a l ih =>
    intro cur hp hm
    rw [List.foldl_cons]
    by_cases ha : a = i
    · subst ha
      have hskip : velStep a cur a = cur := by
        unfold velStep
        rw [if_pos rfl]
      rw [hskip, ih cur hp hm]
      simp
    · have hstep : velStep i cur a = Function.update cur i
          ((cur i).UpdateVelocity (calculateGravitationalForce (cur i) (cur a))) := by
        unfold velStep
        rw [if_neg ha]
      rw [hstep]
      have hp2 : ∀ j, ((Function.update cur i
          ((cur i).UpdateVelocity (calculateGravitationalForce (cur i) (cur a)))) j).position =
          (arr j).position := by
        intro j
        by_cases hj : j = i
        · subst hj
          rw [Function.update_same]
          exact hp j
        · rw [Function.update_noteq hj]
          exact hp j
      have hm2 : ∀ j, ((Function.update cur i
          ((cur i).UpdateVelocity (calculateGravitationalForce (cur i) (cur a)))) j).mass =
          (arr j).mass := by
        intro j
        by_cases hj : j = i
        · subst hj
          rw [Function.update_same]
          exact hm j
        · rw [Function.update_noteq hj]
          exact hm j
      rw [ih _ hp2 hm2]
      have hF : calculateGravitationalForce (cur i) (cur a) =
          calculateGravitationalForce (arr i) (arr a) :=
        calcForce_congr _ _ _ _ (hp i) (hm i) (hp a) (hm a)
      funext k
      by_cases hk : k = i
      · subst hk
        simp only [Function.update_same]
        ext
        · rfl
        · rfl
        · rfl
        · rfl
        · rfl
        · rfl
        · simp only [SpaceObject.UpdateVelocity, hF, hm k, List.map_cons, List.sum_cons,
            if_neg ha]
          ring
        · simp only [SpaceObject.UpdateVelocity, hF, hm k, List.map_cons, List.sum_cons,
            if_neg ha]
          ring
        · rfl
      · simp only [Function.update_noteq hk]

theorem foldl_innerLoop {n : ℕ} (arr : Fin n → SpaceObject) :
    ∀ (l : List (Fin n)), l.Nodup →
      ∀ (cur : Fin n → SpaceObject),
        (∀ j, (cur j).position = (arr j).position) →
        (∀ j, (cur j).mass = (arr j).mass) →
        l.foldl (fun acc i => (List.finRange n).foldl (velStep i) acc) cur = fun k =>
          if k ∈ l then
            { cur k with velocity :=
                ⟨(cur k).velocity.X + dvX arr k, (cur k).velocity.Y + dvY arr k⟩ }
          else cur k := by
  intro l
  induction l with
  | nil =>
    intro _ cur hp hm
    funext k
    simp
  | cons a l ih =>
    intro hnd cur hp hm
    rcases List.nodup_cons.mp hnd with ⟨hal, hl⟩
    rw [List.foldl_cons]
    have hinner : (List.finRange n).foldl (velStep a) cur = Function.update cur a
        { cur a with velocity :=
            ⟨(cur a).velocity.X + dvX arr a, (cur a).velocity.Y + dvY arr a⟩ } :=
      foldl_velStep a arr (List.finRange n) cur hp hm
    rw [hinner]
    have hp2 : ∀ j, ((Function.update cur a
        { cur a with velocity :=
            ⟨(cur a).velocity.X + dvX arr a, (cur a).velocity.Y + dvY arr a⟩ }) j).position =
        (arr j).position := by
      intro j
      by_cases hj : j = a
      · subst hj
        rw [Function.update_same]
        exact hp j
      · rw [Function.update_noteq hj]
        exact hp j
    have hm2 : ∀ j, ((Function.update cur a
        { cur a with velocity :=
            ⟨(cur a).velocity.X + dvX arr a, (cur a).velocity.Y + dvY arr a⟩ }) j).mass =
        (arr j).mass := by
      intro j
      by_cases hj : j = a
      · subst hj
        rw [Function.update_same]
        exact hm j
      · rw [Function.update_noteq hj]
        exact hm j
    rw [ih hl _ hp2 hm2]
    funext k
    by_cases hk : k ∈ l
    · have hka : k ≠ a := by
        intro hkk
        exact hal (hkk ▸ hk)
      simp only [hk, if_pos, List.mem_cons, Function.update_noteq hka]
      have : k ∈ a :: l := List.mem_cons_of_mem a hk
      simp [this, hk]
    · by_cases hka : k = a
      · subst hka
        have hmem : k ∈ k :: l := List.mem_cons_self k l
        have hnotl : ¬ k ∈ l := hk
        simp [hmem, hnotl, Function.update_same]
      · have hnot : ¬ k ∈ a :: l := by
          intro hmem
          rcases List.mem_cons.mp hmem with h1 | h2
          · exact hka h1
          · exact hk h2
        simp [hnot, hk, Function.update_noteq hka]

theorem velocityPhase_apply {n : ℕ} (arr : Fin n → SpaceObject) (k : Fin n) :
    velocityPhase arr k =
      { arr k with velocity :=
          ⟨(arr k).velocity.X + dvX arr k, (arr k).velocity.Y + dvY arr k⟩ } := by
  have h := foldl_innerLoop arr (List.finRange n) (List.nodup_finRange n) arr
    (fun j => rfl) (fun j => rfl)
  unfold velocityPhase
  rw [h]
  simp [List.mem_finRange]

theorem velocityPhase_position {n : ℕ} (arr : Fin n → SpaceObject) (k : Fin n) :
    (velocityPhase arr k).position = (arr k).position := by
  rw [velocityPhase_apply]

theorem velocityPhase_mass {n : ℕ} (arr : Fin n → SpaceObject) (k : Fin n) :
    (velocityPhase arr k).mass = (arr k).mass := by
  rw [velocityPhase_apply]

theorem velocityPhase_name {n : ℕ} (arr : Fin n → SpaceObject) (k : Fin n) :
    (velocityPhase arr k).name = (arr k).name := by
  rw [velocityPhase_apply]

theorem velocityPhase_velocity {n : ℕ} (arr : Fin n → SpaceObject) (k : Fin n) :
    (velocityPhase arr k).velocity =
      ⟨(arr k).velocity.X + ((NetForceOn arr k).X / (arr k).mass) * dt,
       (arr k).velocity.Y + ((NetForceOn arr k).Y / (arr k).mass) * dt⟩ := by
  rw [velocityPhase_apply]
  rw [show ({ arr k with velocity :=
      ⟨(arr k).velocity.X + dvX arr k, (arr k).velocity.Y + dvY arr k⟩ } :
      SpaceObject).velocity =
      ⟨(arr k).velocity.X + dvX arr k, (arr k).velocity.Y + dvY arr k⟩ from rfl]
  rw [dvX_eq, dvY_eq]

theorem Update_apply {n : ℕ} (g : Game n) (i : Fin n) :
    (Game.Update g).1.spaceObjects i = positionPhase g (velocityPhase g.spaceObjects i) := rfl

theorem Update_time {n : ℕ} (g : Game n) : (Game.Update g).1.time = g.time + dt := rfl

theorem Update_err {n : ℕ} (g : Game n) : (Game.Update g).2 = none := rfl

theorem Update_velocity {n : ℕ} (g : Game n) (i : Fin n) :
    ((Game.Update g).1.spaceObjects i).velocity =
      ⟨(g.spaceObjects i).velocity.X +
          ((NetForceOn g.spaceObjects i).X / (g.spaceObjects i).mass) * dt,
       (g.spaceObjects i).velocity.Y +
          ((NetForceOn g.spaceObjects i).Y / (g.spaceObjects i).mass) * dt⟩ := by
  rw [Update_apply, positionPhase_velocity, velocityPhase_velocity]

theorem Update_position {n : ℕ} (g : Game n) (i : Fin n) :
    ((Game.Update g).1.spaceObjects i).position =
      ⟨(g.spaceObjects i).position.X + ((Game.Update g).1.spaceObjects i).velocity.X * dt,
       (g.spaceObjects i).position.Y + ((Game.Update g).1.spaceObjects i).velocity.Y * dt⟩ := by
  rw [Update_apply, positionPhase_position, positionPhase_velocity, velocityPhase_position]

theorem Update_mass {n : ℕ} (g : Game n) (i : Fin n) :
    ((Game.Update g).1.spaceObjects i).mass = (g.spaceObjects i).mass := by
  rw [Update_apply, positionPhase_mass, velocityPhase_mass]

theorem Update_name {n : ℕ} (g : Game n) (i : Fin n) :
    ((Game.Update g).1.spaceObjects i).name = (g.spaceObjects i).name := by
  rw [Update_apply, positionPhase_name, velocityPhase_name]

theorem gravitation_pos : 0 < gravitation := by norm_num [gravitation]

theorem NetForceOn_congr {n : ℕ} (arr arr2 : Fin n → SpaceObject)
    (hp : ∀ j, (arr j).position = (arr2 j).position)
    (hm : ∀ j, (arr j).mass = (arr2 j).mass) (i : Fin n) :
    NetForceOn arr i = NetForceOn arr2 i := by
  unfold NetForceOn
  have hX : ∀ j ∈ List.finRange n,
      (if j = i then (0:ℝ) else (calculateGravitationalForce (arr i) (arr j)).X) =
      (if j = i then (0:ℝ) else (calculateGravitationalForce (arr2 i) (arr2 j)).X) := by
    intro j _
    by_cases hj : j = i
    · simp [hj]
    · simp only [if_neg hj]
      rw [calcForce_congr _ _ _ _ (hp i) (hm i) (hp j) (hm j)]
  have hY : ∀ j ∈ List.finRange n,
      (if j = i then (0:ℝ) else (calculateGravitationalForce (arr i) (arr j)).Y) =
      (if j = i then (0:ℝ) else (calculateGravitationalForce (arr2 i) (arr2 j)).Y) := by
    intro j _
    by_cases hj : j = i
    · simp [hj]
    · simp only [if_neg hj]
      rw [calcForce_congr _ _ _ _ (hp i) (hm i) (hp j) (hm j)]
  rw [List.map_congr_left hX, List.map_congr_left hY]

theorem NetForceOn_two (arr : Fin 2 → SpaceObject) (i : Fin 2) (j : Fin 2) (hij : j ≠ i) :
    NetForceOn arr i = ⟨(calculateGravitationalForce (arr i) (arr j)).X,
                        (calculateGravitationalForce (arr i) (arr j)).Y⟩ := by
  fin_cases i <;> fin_cases j <;> first
    | exact absurd rfl hij
    | simp [NetForceOn, show (List.finRange 2) = [0, 1] from by decide,
        show (1 : Fin 2) ≠ 0 from by decide, show (0 : Fin 2) ≠ 1 from by decide]

/-- C10: in the n-body variant, updating each body velocity immediately
    inside the pairwise force loop yields exactly the same post-step state
    as the strict two-phase formulation (all net forces computed from
    pre-step positions, then all velocities updated, then all positions),
    because the force computation reads only positions and masses, which
    the velocity loop never mutates. -/
theorem c10_interleaved_eq_two_phase {n : ℕ} (g : Game n) :
    (Game.Update g).1 = twoPhaseStep g := by
  apply Game.ext
  · rfl
  · rfl
  · funext i
    rw [Update_apply]
    rw [show (twoPhaseStep g).spaceObjects i =
        positionPhase g ((g.spaceObjects i).UpdateVelocity (NetForceOn g.spaceObjects i))
        from rfl]
    congr 1
    rw [velocityPhase_apply]
    unfold SpaceObject.UpdateVelocity
    rw [dvX_eq, dvY_eq]
  · rfl

/-- C2 (amended to the n-body variant, part_000; the two-body main.go
    variant violates the claim): for every body i of every world, one tick
    adds the net gravitational force from all other bodies divided by the
    body mass, times dt, to the velocity of i, and then moves i by its new
    velocity times dt — no body is exempt from the force/integration
    phase. -/
theorem c2_amended_every_body_integrated {n : ℕ} (g : Game n) (i : Fin n) :
    ((Game.Update g).1.spaceObjects i).velocity =
      ⟨(g.spaceObjects i).velocity.X +
          ((NetForceOn g.spaceObjects i).X / (g.spaceObjects i).mass) * dt,
       (g.spaceObjects i).velocity.Y +
          ((NetForceOn g.spaceObjects i).Y / (g.spaceObjects i).mass) * dt⟩ ∧
    ((Game.Update g).1.spaceObjects i).position =
      ⟨(g.spaceObjects i).position.X + ((Game.Update g).1.spaceObjects i).velocity.X * dt,
       (g.spaceObjects i).position.Y + ((Game.Update g).1.spaceObjects i).velocity.Y * dt⟩ :=
  ⟨Update_velocity g i, Update_position g i⟩

/-- C1 (amended to the n-body variant, part_000; the two-body main.go
    variant violates the claim): during one tick every position is
    unchanged throughout the whole force/velocity phase, so every
    gravitational force computation of the tick reads only pre-tick
    positions. -/
theorem c1_amended_force_phase_reads_pretick {n : ℕ} (arr : Fin n → SpaceObject) (i : Fin n) :
    (velocityPhase arr i).position = (arr i).position :=
  velocityPhase_position arr i

/-- C3: the integrator is semi-implicit Euler: the velocity is updated
    first by the acceleration force/mass times dt, and the position update
    consumes the NEW velocity. -/
theorem c3_semi_implicit_euler (so : SpaceObject) (F : Vector) (h : 0 < so.mass) :
    ((so.UpdateVelocity F).UpdatePosition).velocity =
      ⟨so.velocity.X + (F.X / so.mass) * dt, so.velocity.Y + (F.Y / so.mass) * dt⟩ ∧
    ((so.UpdateVelocity F).UpdatePosition).position =
      ⟨so.position.X + (so.velocity.X + (F.X / so.mass) * dt) * dt,
       so.position.Y + (so.velocity.Y + (F.Y / so.mass) * dt) * dt⟩ :=
  ⟨rfl, rfl⟩

theorem c3_witness :
    0 < w3so.mass ∧
    ((w3so.UpdateVelocity w3f).UpdatePosition).velocity =
      ⟨w3so.velocity.X + (w3f.X / w3so.mass) * dt, w3so.velocity.Y + (w3f.Y / w3so.mass) * dt⟩ ∧
    ((w3so.UpdateVelocity w3f).UpdatePosition).position =
      ⟨w3so.position.X + (w3so.velocity.X + (w3f.X / w3so.mass) * dt) * dt,
       w3so.position.Y + (w3so.velocity.Y + (w3f.Y / w3so.mass) * dt) * dt⟩ :=
  ⟨by norm_num [w3so],
   (c3_semi_implicit_euler w3so w3f (by norm_num [w3so])).1,
   (c3_semi_implicit_euler w3so w3f (by norm_num [w3so])).2⟩

/-- C5: the pairwise force computation is exactly antisymmetric: the force
    on A due to B is the componentwise negation of the force on B due to
    A, even though each side is computed independently (exact in the real
    valued model of float64 used here). -/
theorem c5_antisymmetry (a b : SpaceObject) (hne : a.position ≠ b.position) :
    calculateGravitationalForce a b =
      ⟨-(calculateGravitationalForce b a).X, -(calculateGravitationalForce b a).Y⟩ :=
  calcForce_antisymm a b

theorem c5_witness :
    w5a.position ≠ w5b.position ∧
    calculateGravitationalForce w5a w5b =
      ⟨-(calculateGravitationalForce w5b w5a).X, -(calculateGravitationalForce w5b w5a).Y⟩ := by
  have hne : w5a.position ≠ w5b.position := by
    intro h
    have h2 := congrArg Vector.X h
    norm_num [w5a, w5b] at h2
  exact ⟨hne, c5_antisymmetry w5a w5b hne⟩

/-- C7: a body never contributes a force on itself: the self pair is
    skipped by the identity check j = i of the inner loop, and in a
    single-body world the net force is the zero vector and the body
    velocity is unchanged by the tick. -/
theorem c7_self_exclusion (g : Game 1) (i : Fin 1) :
    NetForceOn g.spaceObjects i = ⟨0, 0⟩ ∧
    ((Game.Update g).1.spaceObjects i).velocity = (g.spaceObjects i).velocity := by
  have hi : i = 0 := Fin.eq_zero i
  subst hi
  have hnf : NetForceOn g.spaceObjects 0 = ⟨0, 0⟩ := by
    simp [NetForceOn, show (List.finRange 1) = [0] from by decide]
  refine ⟨hnf, ?_⟩
  rw [Update_velocity, hnf]
  refine Vector.ext ?_ ?_ <;> simp

/-- C9: the step never fails: for well-formed inputs the n-body Update
    returns the nil error, advances the clock by dt, and leaves every mass
    and name untouched — its only effect is the mutated body states and
    the advanced clock. -/
theorem c9_step_never_fails {n : ℕ} (g : Game n)
    (hm : ∀ i, 0 < (g.spaceObjects i).mass)
    (hpos : ∀ i j, i ≠ j → (g.spaceObjects i).position ≠ (g.spaceObjects j).position) :
    (Game.Update g).2 = none ∧
    (Game.Update g).1.time = g.time + dt ∧
    (∀ i, ((Game.Update g).1.spaceObjects i).mass = (g.spaceObjects i).mass) ∧
    (∀ i, ((Game.Update g).1.spaceObjects i).name = (g.spaceObjects i).name) :=
  ⟨rfl, rfl, fun i => Update_mass g i, fun i => Update_name g i⟩

theorem c9_witness :
    0 < (w9.spaceObjects 0).mass ∧
    (w9.spaceObjects 0).position ≠ (w9.spaceObjects 1).position ∧
    (Game.Update w9).2 = none ∧ (Game.Update w9).1.time = w9.time + dt := by
  have hm : ∀ i : Fin 2, 0 < (w9.spaceObjects i).mass := by
    intro i
    fin_cases i <;> norm_num [w9]
  have hp : ∀ i j : Fin 2, i ≠ j →
      (w9.spaceObjects i).position ≠ (w9.spaceObjects j).position := by
    intro i j hij
    fin_cases i <;> fin_cases j <;> first
      | exact absurd rfl hij
      | (intro h; have h2 := congrArg Vector.X h; norm_num [w9] at h2)
  exact ⟨hm 0, hp 0 1 (by decide),
    (c9_step_never_fails w9 hm hp).1, (c9_step_never_fails w9 hm hp).2.1⟩

theorem momentum_step (g : Game 2)
    (h0 : (g.spaceObjects 0).mass ≠ 0) (h1 : (g.spaceObjects 1).mass ≠ 0) :
    momentum (Game.Update g).1 = momentum g := by
  have hnf0 := NetForceOn_two g.spaceObjects 0 1 (by decide)
  have hnf1 := NetForceOn_two g.spaceObjects 1 0 (by decide)
  have ha := calcForce_antisymm (g.spaceObjects 1) (g.spaceObjects 0)
  refine Vector.ext ?_ ?_
  · simp only [momentum, show (List.finRange 2) = [0, 1] from by decide,
      List.map_cons, List.map_nil, List.sum_cons, List.sum_nil]
    rw [Update_mass, Update_mass, Update_velocity, Update_velocity, hnf0, hnf1, ha]
    dsimp only
    field_simp
    ring
  · simp only [momentum, show (List.finRange 2) = [0, 1] from by decide,
      List.map_cons, List.map_nil, List.sum_cons, List.sum_nil]
    rw [Update_mass, Update_mass, Update_velocity, Update_velocity, hnf0, hnf1, ha]
    dsimp only
    field_simp
    ring

theorem iterate_mass {n : ℕ} (k : ℕ) (g : Game n) (i : Fin n) :
    ((stepGame^[k] g).spaceObjects i).mass = (g.spaceObjects i).mass := by
  induction k generalizing g with
  | zero => rfl
  | succ k ih =>
    rw [Function.iterate_succ_apply, ih]
    exact Update_mass g i

/-- C6: for every two-body world with positive masses and non-coincident
    positions, total momentum (the sum over bodies of mass times velocity)
    is conserved exactly across any number of ticks: in the real valued
    model of float64 the equality is exact, hence within any floating
    point tolerance. -/
theorem c6_momentum_conserved (g : Game 2)
    (h0 : 0 < (g.spaceObjects 0).mass) (h1 : 0 < (g.spaceObjects 1).mass)
    (hne : (g.spaceObjects 0).position ≠ (g.spaceObjects 1).position) (k : ℕ) :
    momentum (stepGame^[k] g) = momentum g := by
  induction k with
  | zero => rfl
  | succ k ih =>
    rw [Function.iterate_succ_apply']
    have ha : ((stepGame^[k] g).spaceObjects 0).mass ≠ 0 := by
      rw [iterate_mass]
      exact ne_of_gt h0
    have hb : ((stepGame^[k] g).spaceObjects 1).mass ≠ 0 := by
      rw [iterate_mass]
      exact ne_of_gt h1
    rw [show stepGame (stepGame^[k] g) = (Game.Update (stepGame^[k] g)).1 from rfl]
    rw [momentum_step _ ha hb, ih]

theorem c6_witness :
    0 < (w6.spaceObjects 0).mass ∧
    (w6.spaceObjects 0).position ≠ (w6.spaceObjects 1).position ∧
    momentum (stepGame^[3] w6) = momentum w6 := by
  have h0 : 0 < (w6.spaceObjects 0).mass := by norm_num [w6]
  have h1 : 0 < (w6.spaceObjects 1).mass := by norm_num [w6]
  have hne : (w6.spaceObjects 0).position ≠ (w6.spaceObjects 1).position := by
    intro h
    have h2 := congrArg Vector.X h
    norm_num [w6] at h2
  exact ⟨h0, hne, c6_momentum_conserved w6 h0 h1 hne 3⟩

/-- C8: the physics step is deterministic and free of hidden state: two
    worlds that agree on every mass, position, velocity and on the clock
    (whatever their names, colors, scaled positions or screen dimensions)
    still agree on all of these after one tick. -/
theorem c8_physics_deterministic {n : ℕ} (g g2 : Game n) (h : physState g = physState g2) :
    physState (Game.Update g).1 = physState (Game.Update g2).1 := by
  have hfun : (fun i => ((g.spaceObjects i).mass, (g.spaceObjects i).position,
      (g.spaceObjects i).velocity)) = (fun i => ((g2.spaceObjects i).mass,
      (g2.spaceObjects i).position, (g2.spaceObjects i).velocity)) := congrArg Prod.fst h
  have ht : g.time = g2.time := congrArg Prod.snd h
  have hmk : ∀ i : Fin n, (g.spaceObjects i).mass = (g2.spaceObjects i).mass ∧
      (g.spaceObjects i).position = (g2.spaceObjects i).position ∧
      (g.spaceObjects i).velocity = (g2.spaceObjects i).velocity := by
    intro i
    have h3 := congrFun hfun i
    simpa only [Prod.mk.injEq] using h3
  have hm : ∀ i, (g.spaceObjects i).mass = (g2.spaceObjects i).mass := fun i => (hmk i).1
  have hp : ∀ i, (g.spaceObjects i).position = (g2.spaceObjects i).position :=
    fun i => (hmk i).2.1
  have hv : ∀ i, (g.spaceObjects i).velocity = (g2.spaceObjects i).velocity :=
    fun i => (hmk i).2.2
  have hnf : ∀ i, NetForceOn g.spaceObjects i = NetForceOn g2.spaceObjects i :=
    fun i => NetForceOn_congr _ _ hp hm i
  simp only [physState, Prod.mk.injEq]
  refine ⟨funext fun i => ?_, ?_⟩
  · simp only [Prod.mk.injEq]
    refine ⟨?_, ?_, ?_⟩
    · rw [Update_mass, Update_mass, hm i]
    · rw [Update_position, Update_position, Update_velocity, Update_velocity,
        hnf i, hm i, hp i, hv i]
    · rw [Update_velocity, Update_velocity, hnf i, hm i, hv i]
  · rw [Update_time, Update_time, ht]

theorem c8_witness :
    physState w8a = physState w8b ∧
    physState (Game.Update w8a).1 = physState (Game.Update w8b).1 := by
  have h : physState w8a = physState w8b := by
    simp only [physState, Prod.mk.injEq]
    refine ⟨funext fun i => ?_, rfl⟩
    fin_cases i <;> rfl
  exact ⟨h, c8_physics_deterministic w8a w8b h⟩

theorem sqrt_force_length (c dX dY L : ℝ) (hc : 0 ≤ c) (hL : 0 < L)
    (hLL : L * L = dX * dX + dY * dY) :
    Real.sqrt ((-(c / (L * L)) * (dX / L)) * (-(c / (L * L)) * (dX / L)) +
      (-(c / (L * L)) * (dY / L)) * (-(c / (L * L)) * (dY / L))) = c / (L * L) := by
  have hsne : dX * dX + dY * dY ≠ 0 := by
    rw [← hLL]
    exact ne_of_gt (mul_pos hL hL)
  have hunit : dX / L * (dX / L) + dY / L * (dY / L) = 1 := by
    rw [div_mul_div_comm, div_mul_div_comm, div_add_div_same, hLL]
    exact div_self hsne
  have hA : 0 ≤ c / (L * L) := div_nonneg hc (le_of_lt (mul_pos hL hL))
  rw [show (-(c / (L * L)) * (dX / L)) * (-(c / (L * L)) * (dX / L)) +
      (-(c / (L * L)) * (dY / L)) * (-(c / (L * L)) * (dY / L)) =
      (c / (L * L)) * (c / (L * L)) from by
    linear_combination (c / (L * L)) * (c / (L * L)) * hunit]
  exact Real.sqrt_mul_self hA

/-- C4: for two bodies at distinct positions with positive masses, the
    computed force on a due to b has magnitude G times a.mass times b.mass
    over r squared, with r the Euclidean distance between the positions,
    and is attractive: it equals minus that magnitude times the unit
    vector pointing from b to a. -/
theorem c4_force_law (a b : SpaceObject) (d : Vector) (r : ℝ)
    (hma : 0 < a.mass) (hmb : 0 < b.mass) (hne : a.position ≠ b.position)
    (hd : d = ⟨a.position.X - b.position.X, a.position.Y - b.position.Y⟩)
    (hr : r = d.Length) :
    (calculateGravitationalForce a b).Length = gravitation * a.mass * b.mass / (r * r) ∧
    calculateGravitationalForce a b =
      ⟨-(gravitation * a.mass * b.mass / (r * r)) * d.Normalize.X,
       -(gravitation * a.mass * b.mass / (r * r)) * d.Normalize.Y⟩ := by
  subst hd
  subst hr
  have hne2 : ¬(a.position.X - b.position.X = 0 ∧ a.position.Y - b.position.Y = 0) := by
    rintro ⟨h1, h2⟩
    exact hne (Vector.ext (by linarith) (by linarith))
  have hs : 0 < (a.position.X - b.position.X) * (a.position.X - b.position.X) +
      (a.position.Y - b.position.Y) * (a.position.Y - b.position.Y) := by
    rcases not_and_or.mp hne2 with h | h
    · nlinarith [mul_self_pos.mpr h, mul_self_nonneg (a.position.Y - b.position.Y)]
    · nlinarith [mul_self_pos.mpr h, mul_self_nonneg (a.position.X - b.position.X)]
  have hL : 0 < Real.sqrt ((a.position.X - b.position.X) * (a.position.X - b.position.X) +
      (a.position.Y - b.position.Y) * (a.position.Y - b.position.Y)) := Real.sqrt_pos.mpr hs
  have hLL := Real.mul_self_sqrt hs.le
  have hc : 0 ≤ gravitation * b.mass * a.mass :=
    mul_nonneg (mul_nonneg gravitation_pos.le hmb.le) hma.le
  constructor
  · simp only [calculateGravitationalForce, Vector.Length, Vector.Normalize]
    rw [sqrt_force_length (gravitation * b.mass * a.mass) _ _ _ hc hL hLL]
    ring
  · simp only [calculateGravitationalForce, Vector.Length, Vector.Normalize, Vector.mk.injEq]
    constructor <;> ring

theorem c4_witness :
    0 < w4a.mass ∧ w4a.position ≠ w4b.position ∧
    (calculateGravitationalForce w4a w4b).Length =
      gravitation * w4a.mass * w4b.mass /
        ((⟨w4a.position.X - w4b.position.X, w4a.position.Y - w4b.position.Y⟩ : Vector).Length *
         (⟨w4a.position.X - w4b.position.X, w4a.position.Y - w4b.position.Y⟩ : Vector).Length) := by
  have hne : w4a.position ≠ w4b.position := by
    intro h
    have h2 := congrArg Vector.X h
    norm_num [w4a, w4b] at h2
  exact ⟨by norm_num [w4a], hne,
    (c4_force_law w4a w4b _ _ (by norm_num [w4a]) (by norm_num [w4b]) hne rfl rfl).1⟩

/-- C2 is false as stated for the two-body variant of main.go: the force
    law prescribes a nonzero gravitational force on the planet from the
    spacecraft (both masses 1, distance 1), yet Update leaves the planet
    velocity unchanged — the planet is exempt from the force and
    integration phase. -/
theorem c2_cex_planet_exempt :
    (Main.Game.Update cexGame2).1.planet.velocity = cexGame2.planet.velocity ∧
    calculateGravitationalForce cexPlanetObj cexCraftObj ≠ ⟨0, 0⟩ := by
  constructor
  · rfl
  · intro hcontra
    have hX := congrArg Vector.X hcontra
    simp only [calculateGravitationalForce, cexPlanetObj, cexCraftObj,
      Vector.Normalize, Vector.Length] at hX
    rw [show ((0:ℝ) - 1) * ((0:ℝ) - 1) + ((0:ℝ) - 0) * ((0:ℝ) - 0) = 1 by norm_num] at hX
    rw [Real.sqrt_one] at hX
    norm_num [gravitation] at hX

/-- C1 is false as stated for the two-body variant of main.go: at a
    concrete world the spacecraft velocity produced by Update differs from
    the velocity produced when the force is computed from the pre-tick
    planet position, because Update reassigns the planet position before
    the force computation that reads it. -/
theorem c1_cex_update_moves_planet_before_force :
    (Main.Game.Update cexGame1).1.spacecraft.velocity.X ≠
      (Main.Game.UpdatePreTickForce cexGame1).1.spacecraft.velocity.X := by
  have hdt : Main.dt = 1440 := by norm_num [Main.dt]
  simp only [Main.Game.Update, Main.Game.UpdatePreTickForce, cexGame1,
    Vector.Normalize, Vector.Length, hdt]
  rw [show ((2880:ℝ) - (0 + 1 * 1440)) * ((2880:ℝ) - (0 + 1 * 1440)) +
      ((0:ℝ) - (0 + 0 * 1440)) * ((0:ℝ) - (0 + 0 * 1440)) = 1440 * 1440 by norm_num]
  rw [show ((2880:ℝ) - 0) * ((2880:ℝ) - 0) + ((0:ℝ) - 0) * ((0:ℝ) - 0) = 2880 * 2880
    by norm_num]
  rw [Real.sqrt_mul_self (by norm_num : (0:ℝ) ≤ 1440)]
  rw [Real.sqrt_mul_self (by norm_num : (0:ℝ) ≤ 2880)]
  norm_num [Main.gravitation]

end Swingby
